import Mathlib

/-!
Shallow embedding of the etlr CLI: the `WorkflowsClient` payload builders from
`src/etlr/client.py` and the environment-variable reconciliation plus the
`deploy`, `delete` and `restore` command flows from `src/etlr/main.py`.

External collaborators (the HTTP transport, the YAML parser, the CLI
framework) are modelled at their interfaces: YAML bodies arrive as already
parsed declaration lists, the process environment is an explicit
`String → Option String` provider, and a command's network activity is
recorded as a trace of request payloads.
-/

namespace Etlr

/-- Scalar values appearing in JSON request payloads (`str` or `int` fields). -/
inductive JVal
  | str (s : String)
  | int (n : Int)
deriving DecidableEq, Repr

/-- Python truthiness of an `Optional[str]` value: `None` and `""` are falsy. -/
def pyTruthy : Option String → Bool
  | none => false
  | some s => s ≠ ""

/-- Error message raised by the identifier-requiring client operations
(client.py, repeated in `get_workflow`, `delete_workflow`, `deploy_workflow`,
`stop_workflow`, `get_status`). -/
def identErrMsg : String := "Must provide either workflow_id or both name and stage"

/-- Identifier-resolution payload builder. The five identifier-requiring
operations of `WorkflowsClient` (client.py lines 81-215) repeat this exact
code with their own `action` string: `if workflow_id:` use it alone,
`elif name and stage:` use the pair, `else` raise `APIError` before any
request is made. The `Except.error` result models the raised `APIError`. -/
def identRequestPayload (action : String) (workflow_id name stage : Option String) :
    Except String (List (String × JVal)) :=
  if pyTruthy workflow_id then
    Except.ok [("action", JVal.str action), ("workflow_id", JVal.str (workflow_id.getD ""))]
  else if pyTruthy name && pyTruthy stage then
    Except.ok [("action", JVal.str action), ("name", JVal.str (name.getD "")),
               ("stage", JVal.str (stage.getD ""))]
  else
    Except.error identErrMsg

/-- `WorkflowsClient.get_workflow` (client.py lines 81-101). -/
def get_workflow (workflow_id name stage : Option String) :
    Except String (List (String × JVal)) :=
  identRequestPayload "get" workflow_id name stage

/-- `WorkflowsClient.delete_workflow` (client.py lines 129-149). -/
def delete_workflow (workflow_id name stage : Option String) :
    Except String (List (String × JVal)) :=
  identRequestPayload "delete" workflow_id name stage

/-- `WorkflowsClient.deploy_workflow` (client.py lines 151-171). -/
def deploy_workflow (workflow_id name stage : Option String) :
    Except String (List (String × JVal)) :=
  identRequestPayload "deploy" workflow_id name stage

/-- `WorkflowsClient.stop_workflow` (client.py lines 173-193). -/
def stop_workflow (workflow_id name stage : Option String) :
    Except String (List (String × JVal)) :=
  identRequestPayload "stop" workflow_id name stage

/-- `WorkflowsClient.get_status` (client.py lines 195-215). -/
def get_status (workflow_id name stage : Option String) :
    Except String (List (String × JVal)) :=
  identRequestPayload "status" workflow_id name stage

/-- `WorkflowsClient.restore_version` (client.py lines 242-253): both
arguments are required, the payload always carries them. -/
def restore_version (workflow_id : String) (version : Int) : List (String × JVal) :=
  [("action", JVal.str "restore_version"), ("workflow_id", JVal.str workflow_id),
   ("version", JVal.int version)]

/-- One reconciled environment variable as sent with an upsert (main.py line 130). -/
structure EnvVar where
  name : String
  value : String
  secret : Bool
deriving DecidableEq, Repr

/-- One entry of the YAML `workflow.environment` list: either a bare string,
or a mapping whose `name` key may be absent/null (`obj none`) and whose
`secret` key defaults to false (main.py lines 81-88). -/
inductive EnvDecl
  | str (s : String)
  | obj (name : Option String) (secret : Bool)
deriving DecidableEq, Repr

/-- The name a declaration contributes, or `none` when the declaration is
skipped by the `if not name: continue` guard (main.py lines 83-91): mappings
without a truthy `name` and empty bare strings are skipped. -/
def effectiveName : EnvDecl → Option String
  | EnvDecl.str s => if s = "" then none else some s
  | EnvDecl.obj none _ => none
  | EnvDecl.obj (some n) _ => if n = "" then none else some n

/-- The declaration's secret flag: bare strings are never secret (main.py
lines 84-88). -/
def declSecret : EnvDecl → Bool
  | EnvDecl.str _ => false
  | EnvDecl.obj _ s => s

/-- Boolean membership in a list of names (models `name in secret_vars`). -/
def memb : List String → String → Bool
  | [], _ => false
  | x :: xs, n => x = n || memb xs n

/-- Python `dict` assignment `d[k] = v` on an association list: an existing
key keeps its position and gets the new value, a new key is appended. -/
def dictSet : List (String × String) → String → String → List (String × String)
  | [], k, v => [(k, v)]
  | p :: rest, k, v => if p.1 = k then (k, v) :: rest else p :: dictSet rest k v

/-- Python `d.get(k)` on an association list. -/
def lookupD : List (String × String) → String → Option String
  | [], _ => none
  | p :: rest, k => if p.1 = k then some p.2 else lookupD rest k

/-- First entry of an `EnvVar` list carrying the given name. -/
def lookupVar : List EnvVar → String → Option EnvVar
  | [], _ => none
  | e :: rest, k => if e.name = k then some e else lookupVar rest k

/-- Split a character list at the first `'='`, if any. -/
def splitEq : List Char → Option (List Char × List Char)
  | [] => none
  | c :: rest =>
    if c = '=' then some ([], rest)
    else
      match splitEq rest with
      | some kv => some (c :: kv.1, kv.2)
      | none => none

/-- `key, value = item.split("=", 1)` guarded by `if "=" not in item`
(main.py lines 68-71 and 105-108): `none` when the string has no `=`. -/
def parseOverride (s : String) : Option (String × String) :=
  match splitEq s.data with
  | some kv => some (String.mk kv.1, String.mk kv.2)
  | none => none

/-- The CLI override loop (main.py lines 104-109, identically 68-72): each
`KEY=VALUE` item updates the dictionary, an item without `=` raises
`click.ClickException` immediately. -/
def applyOverrides (d : List (String × String)) : List String → Except String (List (String × String))
  | [] => Except.ok d
  | o :: rest =>
    match parseOverride o with
    | none => Except.error ("Invalid env format: " ++ o ++ ". Use KEY=VALUE")
    | some kv => applyOverrides (dictSet d kv.1 kv.2) rest

/-- The value the override list finally assigns to a key, if any: later
entries shadow earlier ones (dictionary assignment order). -/
def lastOverrideVal (k : String) : List String → Option String
  | [] => none
  | o :: rest =>
    match lastOverrideVal k rest with
    | some v => some v
    | none =>
      match parseOverride o with
      | some kv => if kv.1 = k then some kv.2 else none
      | none => none

/-- State of the declaration loop of `gather_environment_variables`
(main.py lines 77-79): the value dictionary, the missing-name list and the
set of secret names. -/
structure GatherState where
  env_vars : List (String × String)
  missing : List String
  secret_vars : List String
deriving DecidableEq, Repr

/-- One iteration of the declaration loop (main.py lines 81-102): skip
nameless entries, record secrecy, then look the name up in the process
environment, appending to `missing` when undefined. -/
def processDecl (env : String → Option String) (st : GatherState) (d : EnvDecl) : GatherState :=
  match effectiveName d with
  | none => st
  | some n =>
    let sv := if declSecret d then n :: st.secret_vars else st.secret_vars
    match env n with
    | none => { st with secret_vars := sv, missing := st.missing ++ [n] }
    | some v => { st with secret_vars := sv, env_vars := dictSet st.env_vars n v }

/-- The `click.ClickException` text for missing variables (main.py
lines 113-117). -/
def missingMsg (missing : List String) : String :=
  "Missing required environment variables: " ++ String.intercalate ", " missing ++
    "\nSet them with:\n  export " ++ missing.headD "" ++ "=value\n" ++
    "Or use the -e flag:\n  etlr deploy workflow.yaml -e " ++ missing.headD "" ++ "=value"

/-- Core of `gather_environment_variables` (main.py lines 56-117), up to the
final dictionary and secret-name set. With no declarations the function
falls back to CLI overrides only (lines 65-74, no secrecy). Otherwise it
runs the declaration loop, applies CLI overrides, and raises when `missing`
is non-empty — note the overrides are not consulted by that check. -/
def gatherCore (decls : List EnvDecl) (env : String → Option String) (ovr : List String) :
    Except String (List (String × String) × List String) :=
  if decls.isEmpty then
    match applyOverrides [] ovr with
    | Except.error e => Except.error e
    | Except.ok d => Except.ok (d, [])
  else
    let st := List.foldl (processDecl env) ⟨[], [], []⟩ decls
    match applyOverrides st.env_vars ovr with
    | Except.error e => Except.error e
    | Except.ok d =>
      if st.missing.isEmpty then Except.ok (d, st.secret_vars)
      else Except.error (missingMsg st.missing)

/-- `gather_environment_variables` (main.py lines 42-130): the API-format
result, each entry's secret flag read off the secret-name set (line 130; the
fallback branch of line 74 uses literal `False`, i.e. the empty set). -/
def gather_environment_variables (decls : List EnvDecl) (env : String → Option String)
    (ovr : List String) : Except String (List EnvVar) :=
  match gatherCore decls env ovr with
  | Except.error e => Except.error e
  | Except.ok (d, sv) => Except.ok (d.map fun p => ⟨p.1, p.2, memb sv p.1⟩)

/-- One line of the human-readable summary (main.py lines 123-126). -/
def displayLine (name value : String) (is_secret : Bool) : String :=
  "  " ++ name ++ ": " ++ (if is_secret then "***" else value) ++
    (if is_secret then " (secret)" else "")

/-- `sorted(env_vars.items())` (main.py line 122). The dictionary's keys are
distinct, so sorting the pairs lexicographically coincides with sorting by
key. -/
def sortByKey (d : List (String × String)) : List (String × String) :=
  List.insertionSort (fun a b => a.1 ≤ b.1) d

/-- The summary lines echoed by `gather_environment_variables` (main.py
lines 119-127). The fallback branch (lines 65-74) returns before the
display block, so it echoes nothing; an exception also echoes nothing. -/
def displaySummary (decls : List EnvDecl) (env : String → Option String)
    (ovr : List String) : List String :=
  if decls.isEmpty then []
  else
    match gatherCore decls env ovr with
    | Except.error _ => []
    | Except.ok (d, sv) => (sortByKey d).map fun p => displayLine p.1 p.2 (memb sv p.1)

/-- Payload of `WorkflowsClient.upsert_workflow` (client.py lines 103-127):
`env` and `stage` fields are included only when truthy. -/
structure UpsertPayload where
  action : String
  workflow_yaml : String
  env : Option (List EnvVar)
  stage : Option String
deriving DecidableEq, Repr

/-- Drop a falsy optional string (the `if stage:` guard). -/
def truthyOpt : Option String → Option String
  | none => none
  | some s => if s = "" then none else some s

/-- `WorkflowsClient.upsert_workflow` (client.py lines 103-127). -/
def upsert_workflow (yaml : String) (env : Option (List EnvVar)) (stage : Option String) :
    UpsertPayload :=
  { action := "upsert"
    workflow_yaml := yaml
    env :=
      match env with
      | some l => if l.isEmpty then none else some l
      | none => none
    stage := truthyOpt stage }

/-- A request issued over the wire: an upsert payload or one of the
identifier-style payloads. -/
inductive ApiReq
  | upsertReq (p : UpsertPayload)
  | wfReq (p : List (String × JVal))
deriving DecidableEq, Repr

/-- Observable outcome of one CLI invocation: the requests issued, in order,
and the process exit code. -/
structure Trace where
  requests : List ApiReq
  exitCode : Nat
deriving DecidableEq, Repr

/-- The `workflow` object of an upsert response (main.py lines 305-308):
`push_result.get("workflow", {}).get(...)` for id, name and stage. -/
structure UpsertResp where
  created : Bool
  id : Option String
  name : Option String
  stage : Option String
deriving DecidableEq, Repr

/-- The file-based branch of the `deploy` command (main.py lines 261-325)
after the YAML file has been read: gather the environment (exit 1, no
request, on failure), issue the upsert, and on success extract id/name/stage
from the response; a falsy id aborts (exit 1), otherwise the deploy request
follows. `stageFlag` is the `--stage` value and `etlrStage` the `ETLR_STAGE`
variable; the CLI framework resolves the option to the environment variable
only when the flag is absent. The server's answers to the two requests
arrive as the `upsertResult` and `deployResult` oracles. -/
def deployFromFile (yamlRaw : String) (decls : List EnvDecl)
    (stageFlag etlrStage : Option String) (ovr : List String)
    (env : String → Option String)
    (upsertResult : Except String UpsertResp) (deployResult : Except String Unit) : Trace :=
  let stage := if stageFlag.isSome then stageFlag else etlrStage
  match gather_environment_variables decls env ovr with
  | Except.error _ => ⟨[], 1⟩
  | Except.ok env_dict =>
    let p := upsert_workflow yamlRaw (if env_dict.isEmpty then none else some env_dict) stage
    match upsertResult with
    | Except.error _ => ⟨[ApiReq.upsertReq p], 1⟩
    | Except.ok resp =>
      if pyTruthy resp.id then
        match deploy_workflow resp.id resp.name resp.stage with
        | Except.error _ => ⟨[ApiReq.upsertReq p], 1⟩
        | Except.ok dp =>
          match deployResult with
          | Except.ok _ => ⟨[ApiReq.upsertReq p, ApiReq.wfReq dp], 0⟩
          | Except.error _ => ⟨[ApiReq.upsertReq p, ApiReq.wfReq dp], 1⟩
      else ⟨[ApiReq.upsertReq p], 1⟩

/-- The `delete` command (main.py lines 192-217): without `--yes`, a negative
confirmation answer aborts with exit code 0 before the client is even
consulted; otherwise `delete_workflow` resolves the identifier (usage error:
exit 1, no request) and the single request is issued, exit code following
the API result. -/
def deleteCmd (workflow_id name stage : Option String) (yes confirmAnswer : Bool)
    (apiResult : Except String Unit) : Trace :=
  if !yes && !confirmAnswer then ⟨[], 0⟩
  else
    match delete_workflow workflow_id name stage with
    | Except.error _ => ⟨[], 1⟩
    | Except.ok p =>
      match apiResult with
      | Except.ok _ => ⟨[ApiReq.wfReq p], 0⟩
      | Except.error _ => ⟨[ApiReq.wfReq p], 1⟩

/-- The `restore` command (main.py lines 475-504): `--id` and `--version`
are required options, so after an affirmative (or skipped) confirmation the
single `restore_version` request is always issued. -/
def restoreCmd (workflow_id : String) (version : Int) (yes confirmAnswer : Bool)
    (apiResult : Except String Unit) : Trace :=
  if !yes && !confirmAnswer then ⟨[], 0⟩
  else
    match apiResult with
    | Except.ok _ => ⟨[ApiReq.wfReq (restore_version workflow_id version)], 0⟩
    | Except.error _ => ⟨[ApiReq.wfReq (restore_version workflow_id version)], 1⟩

/-- Modelled from the spec wording of the identifier policy: if a workflow
UUID (a non-empty string) is given it is used exclusively; else if both name
and stage are given (non-empty) that pair is used; otherwise a usage error
is raised before any network call. -/
def specPairPayload (action : String) (name stage : Option String) :
    Except String (List (String × JVal)) :=
  match name, stage with
  | some n, some s =>
    if n ≠ "" ∧ s ≠ "" then
      Except.ok [("action", JVal.str action), ("name", JVal.str n), ("stage", JVal.str s)]
    else Except.error identErrMsg
  | _, _ => Except.error identErrMsg

/-- Modelled from the spec wording, outer UUID case of `specPairPayload`'s
policy. -/
def specIdentPayload (action : String) (workflow_id name stage : Option String) :
    Except String (List (String × JVal)) :=
  match workflow_id with
  | some u =>
    if u ≠ "" then Except.ok [("action", JVal.str action), ("workflow_id", JVal.str u)]
    else specPairPayload action name stage
  | none => specPairPayload action name stage

/-- Modelled from the claim wording of C4: a name counts as declared secret
when some object-form declaration carries that (non-empty) name together
with `secret: true`; bare-string declarations and undeclared names are
never secret. -/
def declaredSecret (decls : List EnvDecl) (n : String) : Bool :=
  decls.any fun d =>
    match d with
    | EnvDecl.obj (some m) s => decide (m = n) && decide (m ≠ "") && s
    | _ => false

/-- A mapping-form declaration skipped by the `if not name: continue` guard:
no `name` key (or null name), or an empty name. -/
def skippedObj : EnvDecl → Bool
  | EnvDecl.obj none _ => true
  | EnvDecl.obj (some n) _ => n = ""
  | EnvDecl.str _ => false

theorem lookupD_dictSet_self (d : List (String × String)) (k v : String) :
    lookupD (dictSet d k v) k = some v := by
  induction d with
  | nil => simp [dictSet, lookupD]
  | cons p rest ih =>
    by_cases h : p.1 = k
    · simp [dictSet, h, lookupD]
    · simp [dictSet, h, lookupD, ih]

theorem lookupD_dictSet_ne (d : List (String × String)) (k v k2 : String) (h : k2 ≠ k) :
    lookupD (dictSet d k v) k2 = lookupD d k2 := by
  induction d with
  | nil => simp [dictSet, lookupD, h.symm]
  | cons p rest ih =>
    by_cases hp : p.1 = k
    · simp [dictSet, hp, lookupD, h.symm]
    · by_cases hp2 : p.1 = k2 <;> simp [dictSet, hp, lookupD, hp2, h, ih]

/-- Effect of a successful override pass on a lookup: a key last assigned by
the overrides gets that value, a key the overrides never assign keeps its
value from the base dictionary. -/
theorem applyOverrides_lookupD (ovr : List String) (d d2 : List (String × String)) (k : String)
    (h : applyOverrides d ovr = Except.ok d2) :
    (∀ v, lastOverrideVal k ovr = some v → lookupD d2 k = some v) ∧
    (lastOverrideVal k ovr = none → lookupD d2 k = lookupD d k) := by
  induction ovr generalizing d with
  | nil =>
    simp only [applyOverrides] at h
    cases h
    exact ⟨fun v hv => by simp [lastOverrideVal] at hv, fun _ => rfl⟩
  | cons o rest ih =>
    simp only [applyOverrides] at h
    cases hp : parseOverride o with
    | none => simp [hp] at h
    | some kv =>
      simp only [hp] at h
      obtain ⟨ihs, ihn⟩ := ih (dictSet d kv.1 kv.2) h
      constructor
      · intro v hv
        rw [lastOverrideVal] at hv
        cases hr : lastOverrideVal k rest with
        | some v2 =>
          simp only [hr] at hv
          cases hv
          exact ihs _ hr
        | none =>
          simp only [hr, hp] at hv
          by_cases hk : kv.1 = k
          · rw [if_pos hk] at hv
            cases hv
            rw [ihn hr, hk, lookupD_dictSet_self]
          · rw [if_neg hk] at hv
            cases hv
      · intro hn
        rw [lastOverrideVal] at hn
        cases hr : lastOverrideVal k rest with
        | some v2 =>
          simp only [hr] at hn
          exact Option.noConfusion hn
        | none =>
          simp only [hr, hp] at hn
          by_cases hk : kv.1 = k
          · rw [if_pos hk] at hn
            cases hn
          · rw [ihn hr, lookupD_dictSet_ne]
            exact fun hx => hk hx.symm

theorem lookupVar_map (d : List (String × String)) (g : String → Bool) (k : String) :
    lookupVar (d.map fun p => EnvVar.mk p.1 p.2 (g p.1)) k
      = (lookupD d k).map fun v => EnvVar.mk k v (g k) := by
  induction d with
  | nil => rfl
  | cons p rest ih =>
    by_cases h : p.1 = k
    · simp [lookupVar, lookupD, h]
    · simp [lookupVar, lookupD, h, ih]

theorem lookupVar_mem (l : List EnvVar) (k : String) (e : EnvVar)
    (h : lookupVar l k = some e) : e ∈ l ∧ e.name = k := by
  induction l with
  | nil => cases h
  | cons x rest ih =>
    rw [lookupVar] at h
    by_cases hx : x.name = k
    · rw [if_pos hx] at h
      cases h
      exact ⟨List.mem_cons_self _ _, hx⟩
    · rw [if_neg hx] at h
      obtain ⟨h1, h2⟩ := ih h
      exact ⟨List.mem_cons_of_mem _ h1, h2⟩

theorem memb_processDecl (env : String → Option String) (st : GatherState) (d : EnvDecl)
    (n : String) :
    memb (processDecl env st d).secret_vars n
      = (memb st.secret_vars n || declaredSecret [d] n) := by
  cases d with
  | str s =>
    by_cases hs : s = ""
    · simp [processDecl, effectiveName, hs, declaredSecret]
    · simp only [processDecl, effectiveName, if_neg hs, declSecret, if_false]
      cases env s <;> simp [declaredSecret]
  | obj o b =>
    cases o with
    | none => simp [processDecl, effectiveName, declaredSecret]
    | some m =>
      by_cases hm : m = ""
      · simp [processDecl, effectiveName, hm, declaredSecret]
      · simp only [processDecl, effectiveName, if_neg hm, declSecret]
        cases env m <;> cases b <;>
          simp [memb, declaredSecret, hm, Bool.or_comm]

theorem memb_foldl_secret (decls : List EnvDecl) (env : String → Option String)
    (st : GatherState) (n : String) :
    memb (List.foldl (processDecl env) st decls).secret_vars n
      = (memb st.secret_vars n || declaredSecret decls n) := by
  induction decls generalizing st with
  | nil => simp [declaredSecret]
  | cons d rest ih =>
    rw [List.foldl_cons, ih, memb_processDecl]
    have hsum : declaredSecret (d :: rest) n
        = (declaredSecret [d] n || declaredSecret rest n) := by
      simp [declaredSecret]
    rw [hsum, Bool.or_assoc]

theorem memb_secret_final (decls : List EnvDecl) (env : String → Option String) (n : String) :
    memb (List.foldl (processDecl env) ⟨[], [], []⟩ decls).secret_vars n
      = declaredSecret decls n := by
  simp [memb_foldl_secret, memb]

/-- A successful `gatherCore` run always obtained its dictionary from a
successful override pass over some base dictionary. -/
theorem gatherCore_ok_base (decls : List EnvDecl) (env : String → Option String)
    (ovr : List String) (d : List (String × String)) (sv : List String)
    (h : gatherCore decls env ovr = Except.ok (d, sv)) :
    ∃ base, applyOverrides base ovr = Except.ok d := by
  unfold gatherCore at h
  by_cases hd : decls.isEmpty
  · rw [if_pos hd] at h
    cases ha : applyOverrides [] ovr with
    | error e => simp [ha] at h
    | ok dd =>
      simp only [ha] at h
      injection h with h2
      injection h2 with h3 h4
      subst h3
      exact ⟨[], ha⟩
  · rw [if_neg hd] at h
    simp only at h
    cases ha : applyOverrides
        (List.foldl (processDecl env) ⟨[], [], []⟩ decls).env_vars ovr with
    | error e => simp [ha] at h
    | ok dd =>
      simp only [ha] at h
      by_cases hm : (List.foldl (processDecl env) ⟨[], [], []⟩ decls).missing.isEmpty
      · rw [if_pos hm] at h
        injection h with h2
        injection h2 with h3 h4
        subst h3
        exact ⟨_, ha⟩
      · rw [if_neg hm] at h
        exact Except.noConfusion h

/-- Inversion of a successful `gatherCore` run with a non-empty declaration
list: the dictionary came from the override pass over the declaration loop's
dictionary, and the secret set is the declaration loop's. -/
theorem gatherCore_ok_nonempty (decls : List EnvDecl) (env : String → Option String)
    (ovr : List String) (d : List (String × String)) (sv : List String)
    (hne : decls ≠ []) (h : gatherCore decls env ovr = Except.ok (d, sv)) :
    applyOverrides (List.foldl (processDecl env) ⟨[], [], []⟩ decls).env_vars ovr
        = Except.ok d
    ∧ sv = (List.foldl (processDecl env) ⟨[], [], []⟩ decls).secret_vars := by
  have hd : decls.isEmpty = false := by
    cases decls with
    | nil => exact absurd rfl hne
    | cons a l => rfl
  unfold gatherCore at h
  rw [hd] at h
  simp only [Bool.false_eq_true, if_false] at h
  cases ha : applyOverrides
      (List.foldl (processDecl env) ⟨[], [], []⟩ decls).env_vars ovr with
  | error e => simp [ha] at h
  | ok dd =>
    simp only [ha] at h
    by_cases hm : (List.foldl (processDecl env) ⟨[], [], []⟩ decls).missing.isEmpty
    · rw [if_pos hm] at h
      injection h with h2
      injection h2 with h3 h4
      subst h3
      subst h4
      exact ⟨rfl, rfl⟩
    · rw [if_neg hm] at h
      exact Except.noConfusion h

/-- Inversion of a successful `gather_environment_variables` run. -/
theorem gather_ok_inv (decls : List EnvDecl) (env : String → Option String)
    (ovr : List String) (out : List EnvVar)
    (h : gather_environment_variables decls env ovr = Except.ok out) :
    ∃ d sv, gatherCore decls env ovr = Except.ok (d, sv)
      ∧ out = d.map fun p => EnvVar.mk p.1 p.2 (memb sv p.1) := by
  unfold gather_environment_variables at h
  cases hg : gatherCore decls env ovr with
  | error e =>
    rw [hg] at h
    exact Except.noConfusion h
  | ok pr =>
    obtain ⟨d, sv⟩ := pr
    rw [hg] at h
    injection h with h2
    exact ⟨d, sv, rfl, h2.symm⟩

theorem processDecl_skip (env : String → Option String) (st : GatherState) (d : EnvDecl)
    (h : skippedObj d = true) : processDecl env st d = st := by
  cases d with
  | str s => simp [skippedObj] at h
  | obj o b =>
    cases o with
    | none => rfl
    | some m =>
      have hm : m = "" := by simpa [skippedObj] using h
      simp [processDecl, effectiveName, hm]

theorem foldl_processDecl_skip (pre post : List EnvDecl) (d0 : EnvDecl)
    (env : String → Option String) (st : GatherState) (h : skippedObj d0 = true) :
    List.foldl (processDecl env) st (pre ++ d0 :: post)
      = List.foldl (processDecl env) st (pre ++ post) := by
  rw [List.foldl_append, List.foldl_append, List.foldl_cons, processDecl_skip env _ d0 h]

theorem gatherCore_skip (pre post : List EnvDecl) (d0 : EnvDecl)
    (env : String → Option String) (ovr : List String) (h : skippedObj d0 = true) :
    gatherCore (pre ++ d0 :: post) env ovr = gatherCore (pre ++ post) env ovr := by
  have h1 : (pre ++ d0 :: post).isEmpty = false := by
    cases pre with
    | nil => rfl
    | cons a l => rfl
  unfold gatherCore
  rw [h1]
  simp only [Bool.false_eq_true, if_false]
  by_cases h2 : (pre ++ post).isEmpty
  · have hp : pre = [] := by
      cases pre with
      | nil => rfl
      | cons a l => simp [List.isEmpty] at h2
    have hq : post = [] := by
      subst hp
      cases post with
      | nil => rfl
      | cons a l => simp [List.isEmpty] at h2
    subst hp
    subst hq
    rw [if_pos h2]
    simp only [List.nil_append, List.foldl_cons, List.foldl_nil,
      processDecl_skip env _ d0 h]
    cases ha : applyOverrides [] ovr with
    | error e => rfl
    | ok dd => rfl
  · rw [if_neg h2]
    simp only [foldl_processDecl_skip pre post d0 env _ h]

/-- The shared identifier-resolution code agrees with the spec's stated
policy. -/
theorem identRequestPayload_eq_spec (a : String) (wid name stage : Option String) :
    identRequestPayload a wid name stage = specIdentPayload a wid name stage := by
  have hpair : ∀ n s : Option String,
      (if pyTruthy n && pyTruthy s then
        Except.ok [("action", JVal.str a), ("name", JVal.str (n.getD "")),
                   ("stage", JVal.str (s.getD ""))]
      else (Except.error identErrMsg : Except String (List (String × JVal))))
        = specPairPayload a n s := by
    intro n s
    cases n with
    | none => simp [pyTruthy, specPairPayload]
    | some nv =>
      cases s with
      | none => simp [pyTruthy, specPairPayload]
      | some sv =>
        by_cases hn : nv = "" <;> by_cases hs : sv = "" <;>
          simp [pyTruthy, specPairPayload, hn, hs]
  cases wid with
  | none => exact hpair name stage
  | some u =>
    by_cases hu : u = ""
    · subst hu
      exact hpair name stage
    · simp [identRequestPayload, specIdentPayload, pyTruthy, hu]

theorem identRequestPayload_empty_id (a : String) (name stage : Option String) :
    identRequestPayload a (some "") name stage = identRequestPayload a none name stage := rfl

theorem identRequestPayload_empty_pair (a : String) (wid name stage : Option String)
    (h : pyTruthy wid = false) :
    identRequestPayload a wid (some "") stage = Except.error identErrMsg
    ∧ identRequestPayload a wid name (some "") = Except.error identErrMsg := by
  constructor
  · rw [identRequestPayload, h]
    simp [pyTruthy]
  · rw [identRequestPayload, h]
    simp [pyTruthy]

/-- The secret-name set of a successful reconciliation decides membership
exactly as the declared-secret predicate does. -/
theorem gather_ok_secret (decls : List EnvDecl) (env : String → Option String)
    (ovr : List String) (d : List (String × String)) (sv : List String)
    (hg : gatherCore decls env ovr = Except.ok (d, sv)) (n : String) :
    memb sv n = declaredSecret decls n := by
  cases decls with
  | nil =>
    have h : (match applyOverrides [] ovr with
        | Except.error e => (Except.error e : Except String (List (String × String) × List String))
        | Except.ok dd => Except.ok (dd, [])) = Except.ok (d, sv) := hg
    cases ha : applyOverrides [] ovr with
    | error e =>
      simp only [ha] at h
      exact Except.noConfusion h
    | ok dd =>
      simp only [ha] at h
      injection h with h2
      injection h2 with h3 h4
      rw [← h4]
      rfl
  | cons e0 rest =>
    obtain ⟨_, hsv⟩ := gatherCore_ok_nonempty (e0 :: rest) env ovr d sv (by simp) hg
    rw [hsv, memb_secret_final]

/-- C2: for each of the identifier-requiring client operations
`get_workflow`, `delete_workflow`, `deploy_workflow`, `stop_workflow` and
`get_status`: a given workflow UUID makes the payload carry only the
`workflow_id` (name and stage are ignored even when also given); otherwise a
fully given (name, stage) pair is used; otherwise the operation errors
before any request is built. `specIdentPayload` states this resolution
policy in the spec's wording. -/
theorem C2_identifier_resolution (wid name stage : Option String) :
    get_workflow wid name stage = specIdentPayload "get" wid name stage
    ∧ delete_workflow wid name stage = specIdentPayload "delete" wid name stage
    ∧ deploy_workflow wid name stage = specIdentPayload "deploy" wid name stage
    ∧ stop_workflow wid name stage = specIdentPayload "stop" wid name stage
    ∧ get_status wid name stage = specIdentPayload "status" wid name stage :=
  ⟨identRequestPayload_eq_spec "get" wid name stage,
   identRequestPayload_eq_spec "delete" wid name stage,
   identRequestPayload_eq_spec "deploy" wid name stage,
   identRequestPayload_eq_spec "stop" wid name stage,
   identRequestPayload_eq_spec "status" wid name stage⟩

/-- C9: the client operations test identifiers for truthiness, not
presence: an empty-string workflow id behaves exactly like an absent one,
and with a falsy workflow id an empty-string name or stage makes the
operation raise the missing-identifier error even when the other member of
the pair is supplied. -/
theorem C9_truthiness_of_identifiers (name stage wid : Option String) :
    (get_workflow (some "") name stage = get_workflow none name stage
      ∧ delete_workflow (some "") name stage = delete_workflow none name stage
      ∧ deploy_workflow (some "") name stage = deploy_workflow none name stage
      ∧ stop_workflow (some "") name stage = stop_workflow none name stage
      ∧ get_status (some "") name stage = get_status none name stage)
    ∧ (pyTruthy wid = false →
        (get_workflow wid (some "") stage = Except.error identErrMsg
          ∧ get_workflow wid name (some "") = Except.error identErrMsg)
        ∧ (delete_workflow wid (some "") stage = Except.error identErrMsg
          ∧ delete_workflow wid name (some "") = Except.error identErrMsg)
        ∧ (deploy_workflow wid (some "") stage = Except.error identErrMsg
          ∧ deploy_workflow wid name (some "") = Except.error identErrMsg)
        ∧ (stop_workflow wid (some "") stage = Except.error identErrMsg
          ∧ stop_workflow wid name (some "") = Except.error identErrMsg)
        ∧ (get_status wid (some "") stage = Except.error identErrMsg
          ∧ get_status wid name (some "") = Except.error identErrMsg)) := by
  refine ⟨⟨rfl, rfl, rfl, rfl, rfl⟩, fun h => ⟨?_, ?_, ?_, ?_, ?_⟩⟩ <;>
    exact identRequestPayload_empty_pair _ wid name stage h

theorem C9_truthiness_of_identifiers_witness :
    get_workflow none (some "") (some "s") = Except.error identErrMsg
    ∧ get_workflow (some "") (some "n") (some "s") = get_workflow none (some "n") (some "s") :=
  ⟨(((C9_truthiness_of_identifiers (some "n") (some "s") none).2 rfl).1).1,
   (C9_truthiness_of_identifiers (some "n") (some "s") none).1.1⟩

/-- C3: in a successful reconciliation, a name assigned by the CLI
overrides appears in the returned list with the override value — whether or
not it was declared in YAML, and overriding the value the process
environment supplied. -/
theorem C3_override_precedence (decls : List EnvDecl) (env : String → Option String)
    (ovr : List String) (out : List EnvVar) (k v : String)
    (hok : gather_environment_variables decls env ovr = Except.ok out)
    (hov : lastOverrideVal k ovr = some v) :
    ∃ e, e ∈ out ∧ lookupVar out k = some e ∧ e.name = k ∧ e.value = v := by
  obtain ⟨d, sv, hg, hmap⟩ := gather_ok_inv decls env ovr out hok
  obtain ⟨base, hb⟩ := gatherCore_ok_base decls env ovr d sv hg
  have h1 := (applyOverrides_lookupD ovr base d k hb).1 v hov
  subst hmap
  have hl : lookupVar (d.map fun p => EnvVar.mk p.1 p.2 (memb sv p.1)) k
      = some (EnvVar.mk k v (memb sv k)) := by
    rw [lookupVar_map d (memb sv) k, h1]
    rfl
  obtain ⟨hm, _⟩ := lookupVar_mem _ _ _ hl
  exact ⟨_, hm, hl, rfl, rfl⟩

theorem C3_override_precedence_witness :
    ∃ e, e ∈ [EnvVar.mk "API_KEY" "cli-override" true]
      ∧ lookupVar [EnvVar.mk "API_KEY" "cli-override" true] "API_KEY" = some e
      ∧ e.name = "API_KEY" ∧ e.value = "cli-override" :=
  C3_override_precedence [EnvDecl.obj (some "API_KEY") true]
    (fun n => if n = "API_KEY" then some "env-key" else none)
    ["API_KEY=cli-override"] [EnvVar.mk "API_KEY" "cli-override" true]
    "API_KEY" "cli-override" rfl rfl

/-- C4: every entry of a successful reconciliation carries the secret flag
of its YAML declaration: true exactly when some object-form declaration of
that name says `secret: true`; bare-string declarations and undeclared
names (in particular override-introduced ones) yield false, and the flag
does not depend on whether the value came from the environment or an
override. -/
theorem C4_secret_flags (decls : List EnvDecl) (env : String → Option String)
    (ovr : List String) (out : List EnvVar)
    (hok : gather_environment_variables decls env ovr = Except.ok out) :
    ∀ e ∈ out, e.secret = declaredSecret decls e.name := by
  obtain ⟨d, sv, hg, hmap⟩ := gather_ok_inv decls env ovr out hok
  subst hmap
  intro e he
  obtain ⟨p, hp, hpe⟩ := List.mem_map.mp he
  subst hpe
  exact gather_ok_secret decls env ovr d sv hg p.1

theorem C4_secret_flags_witness :
    (EnvVar.mk "API_KEY" "secret-key-123" true).secret
      = declaredSecret [EnvDecl.obj (some "API_KEY") true, EnvDecl.str "LOG_LEVEL"] "API_KEY" :=
  C4_secret_flags [EnvDecl.obj (some "API_KEY") true, EnvDecl.str "LOG_LEVEL"]
    (fun n => if n = "API_KEY" then some "secret-key-123"
              else if n = "LOG_LEVEL" then some "info" else none)
    [] [EnvVar.mk "API_KEY" "secret-key-123" true, EnvVar.mk "LOG_LEVEL" "info" false]
    rfl (EnvVar.mk "API_KEY" "secret-key-123" true) (List.mem_cons_self _ _)

/-- C10: a mapping-form declaration without a truthy name (no `name` key,
null name, or empty name) is silently skipped: reconciliation of the
remaining declarations is exactly the same as if the entry were absent — it
is never reported missing, never emitted, and its secret flag has no
effect. -/
theorem C10_skipped_declaration (pre post : List EnvDecl) (d0 : EnvDecl)
    (env : String → Option String) (ovr : List String) (h : skippedObj d0 = true) :
    gather_environment_variables (pre ++ d0 :: post) env ovr
      = gather_environment_variables (pre ++ post) env ovr := by
  unfold gather_environment_variables
  rw [gatherCore_skip pre post d0 env ovr h]

theorem C10_skipped_declaration_witness :
    gather_environment_variables [EnvDecl.obj none true, EnvDecl.obj (some "A") false]
        (fun _ => some "v") []
      = gather_environment_variables [EnvDecl.obj (some "A") false] (fun _ => some "v") [] :=
  C10_skipped_declaration [] [EnvDecl.obj (some "A") false] (EnvDecl.obj none true)
    (fun _ => some "v") [] rfl

theorem map_eq_of_fn_eq {α β : Type} (l : List α) (f g : α → β)
    (h : ∀ a ∈ l, f a = g a) : l.map f = l.map g := by
  induction l with
  | nil => rfl
  | cons a rest ih =>
    rw [List.map_cons, List.map_cons, h a (List.mem_cons_self a rest),
      ih fun x hx => h x (List.mem_cons_of_mem a hx)]

instance : IsTotal (String × String) fun a b => a.1 ≤ b.1 :=
  ⟨fun a b => le_total a.1 b.1⟩

instance : IsTrans (String × String) fun a b => a.1 ≤ b.1 :=
  ⟨fun _ _ _ hab hbc => le_trans hab hbc⟩

/-- C1: the code contradicts the claim: a declared variable undefined in the
process environment is reported missing even when a CLI override supplies
it, because the `missing` list is collected before the overrides are
applied and is never filtered by them — although the raised message itself
proposes the `-e` flag as the remedy. The deploy command consequently exits
before issuing any request. -/
theorem C1_missing_despite_override :
    lastOverrideVal "DB_URL" ["DB_URL=x"] = some "x"
    ∧ gather_environment_variables [EnvDecl.obj (some "DB_URL") false]
        (fun _ => none) ["DB_URL=x"]
      = Except.error (missingMsg ["DB_URL"])
    ∧ deployFromFile "y" [EnvDecl.obj (some "DB_URL") false] none none ["DB_URL=x"]
        (fun _ => none) (Except.ok ⟨true, some "i", some "n", some "s"⟩) (Except.ok ())
      = ⟨[], 1⟩ :=
  ⟨rfl, rfl, rfl⟩

/-- C5 as stated fails on the code: an invocation whose environment
reconciliation fails issues zero upsert requests (first conjunct), and a
successful upsert whose response carries no workflow id is followed by no
deploy request (second conjunct). -/
theorem C5_counterexample :
    deployFromFile "y" [EnvDecl.obj (some "X") false] none none [] (fun _ => none)
        (Except.ok ⟨true, some "i", some "n", some "s"⟩) (Except.ok ())
      = ⟨[], 1⟩
    ∧ deployFromFile "y" [] none none [] (fun _ => none)
        (Except.ok ⟨true, none, none, none⟩) (Except.ok ())
      = ⟨[ApiReq.upsertReq (upsert_workflow "y" none none)], 1⟩ :=
  ⟨rfl, rfl⟩

/-- C5 (amended): in the file-based deploy flow, once environment
reconciliation succeeds exactly one upsert request is issued; if the upsert
succeeds and its response carries a non-empty workflow id, exactly one
deploy request follows it, in that order, carrying that id; if the upsert
fails, no deploy request is ever attempted. -/
theorem C5_upsert_then_deploy (yamlRaw : String) (decls : List EnvDecl)
    (flag etlr : Option String) (ovr : List String) (env : String → Option String)
    (ed : List EnvVar) (resp : UpsertResp) (i : String) (dR : Except String Unit)
    (hg : gather_environment_variables decls env ovr = Except.ok ed)
    (hid : resp.id = some i) (hi : i ≠ "") :
    (deployFromFile yamlRaw decls flag etlr ovr env (Except.ok resp) dR).requests
      = [ApiReq.upsertReq (upsert_workflow yamlRaw (if ed.isEmpty then none else some ed)
            (if flag.isSome then flag else etlr)),
         ApiReq.wfReq [("action", JVal.str "deploy"), ("workflow_id", JVal.str i)]]
    ∧ (∀ err : String,
        (deployFromFile yamlRaw decls flag etlr ovr env (Except.error err) dR).requests
          = [ApiReq.upsertReq (upsert_workflow yamlRaw (if ed.isEmpty then none else some ed)
              (if flag.isSome then flag else etlr))]) := by
  constructor
  · unfold deployFromFile
    simp only [hg]
    have ht : pyTruthy resp.id = true := by
      rw [hid]
      simp [pyTruthy, hi]
    have hd : deploy_workflow resp.id resp.name resp.stage
        = Except.ok [("action", JVal.str "deploy"), ("workflow_id", JVal.str i)] := by
      rw [hid]
      unfold deploy_workflow identRequestPayload
      simp [pyTruthy, hi]
    simp only [ht, if_true, hd]
    cases dR with
    | ok u => rfl
    | error e => rfl
  · intro err
    unfold deployFromFile
    simp only [hg]

theorem C5_upsert_then_deploy_witness :
    (deployFromFile "y" [] (some "prod") none [] (fun _ => none)
        (Except.ok ⟨true, some "i", some "n", some "dev"⟩) (Except.ok ())).requests
      = [ApiReq.upsertReq (upsert_workflow "y" none (some "prod")),
         ApiReq.wfReq [("action", JVal.str "deploy"), ("workflow_id", JVal.str "i")]] :=
  (C5_upsert_then_deploy "y" [] (some "prod") none [] (fun _ => none) []
    ⟨true, some "i", some "n", some "dev"⟩ "i" (Except.ok ()) rfl rfl
    (by decide)).1

/-- C6: in the file-based deploy flow, every upsert request issued carries
the stage resolved with the precedence `--stage` flag over `ETLR_STAGE`
over the YAML: the payload's stage field is the flag when truthy, else the
environment variable when truthy, else absent — so the YAML's declared
stage governs only when both are absent. -/
theorem C6_stage_precedence (yamlRaw : String) (decls : List EnvDecl)
    (flag etlr : Option String) (ovr : List String) (env : String → Option String)
    (ed : List EnvVar) (uR : Except String UpsertResp) (dR : Except String Unit)
    (h : gather_environment_variables decls env ovr = Except.ok ed) :
    ∃ p : UpsertPayload,
      (deployFromFile yamlRaw decls flag etlr ovr env uR dR).requests.head?
        = some (ApiReq.upsertReq p)
      ∧ p.stage = truthyOpt (if flag.isSome then flag else etlr)
      ∧ p.workflow_yaml = yamlRaw := by
  refine ⟨upsert_workflow yamlRaw (if ed.isEmpty then none else some ed)
      (if flag.isSome then flag else etlr), ?_, rfl, rfl⟩
  unfold deployFromFile
  simp only [h]
  cases uR with
  | error e => rfl
  | ok resp =>
    by_cases hid : pyTruthy resp.id
    · simp only [hid, if_true]
      cases deploy_workflow resp.id resp.name resp.stage with
      | error e2 => rfl
      | ok dp =>
        cases dR with
        | ok u => rfl
        | error e3 => rfl
    · simp [hid]

theorem C6_stage_precedence_witness :
    (∃ p : UpsertPayload,
        (deployFromFile "y" [] (some "prod") (some "staging") [] (fun _ => none)
            (Except.ok ⟨true, some "i", none, none⟩) (Except.ok ())).requests.head?
          = some (ApiReq.upsertReq p)
        ∧ p.stage = some "prod" ∧ p.workflow_yaml = "y")
    ∧ (∃ p : UpsertPayload,
        (deployFromFile "y" [] none (some "staging") [] (fun _ => none)
            (Except.ok ⟨true, some "i", none, none⟩) (Except.ok ())).requests.head?
          = some (ApiReq.upsertReq p)
        ∧ p.stage = some "staging" ∧ p.workflow_yaml = "y")
    ∧ (∃ p : UpsertPayload,
        (deployFromFile "y" [] none none [] (fun _ => none)
            (Except.ok ⟨true, some "i", none, none⟩) (Except.ok ())).requests.head?
          = some (ApiReq.upsertReq p)
        ∧ p.stage = none ∧ p.workflow_yaml = "y") := by
  refine ⟨?_, ?_, ?_⟩
  · obtain ⟨p, h1, h2, h3⟩ := C6_stage_precedence "y" [] (some "prod") (some "staging") []
      (fun _ => none) [] (Except.ok ⟨true, some "i", none, none⟩) (Except.ok ()) rfl
    exact ⟨p, h1, h2.trans rfl, h3⟩
  · obtain ⟨p, h1, h2, h3⟩ := C6_stage_precedence "y" [] none (some "staging") []
      (fun _ => none) [] (Except.ok ⟨true, some "i", none, none⟩) (Except.ok ()) rfl
    exact ⟨p, h1, h2.trans rfl, h3⟩
  · obtain ⟨p, h1, h2, h3⟩ := C6_stage_precedence "y" [] none none []
      (fun _ => none) [] (Except.ok ⟨true, some "i", none, none⟩) (Except.ok ()) rfl
    exact ⟨p, h1, h2.trans rfl, h3⟩

/-- C7 as stated fails on the code: with no `--yes` flag and an affirmative
confirmation answer, a `delete` invocation with no valid identifier
combination issues zero API requests (and exits 1) instead of exactly
one. -/
theorem C7_counterexample :
    deleteCmd none none none false true (Except.ok ()) = ⟨[], 1⟩ := rfl

/-- C7 (amended): for `delete` and `restore` without `--yes`: a negative
confirmation answer exits 0 with no API request; an affirmative answer
issues exactly one API request — unconditionally for `restore` (its
identifier options are required), and for `delete` whenever the identifier
combination is valid, while an invalid combination issues none. -/
theorem C7_confirmation (wid name stage : Option String) (w : String) (v : Int)
    (apiR : Except String Unit) :
    deleteCmd wid name stage false false apiR = ⟨[], 0⟩
    ∧ restoreCmd w v false false apiR = ⟨[], 0⟩
    ∧ (restoreCmd w v false true apiR).requests = [ApiReq.wfReq (restore_version w v)]
    ∧ (∀ p, delete_workflow wid name stage = Except.ok p →
        (deleteCmd wid name stage false true apiR).requests = [ApiReq.wfReq p])
    ∧ (∀ e, delete_workflow wid name stage = Except.error e →
        (deleteCmd wid name stage false true apiR).requests = []) := by
  refine ⟨rfl, rfl, ?_, ?_, ?_⟩
  · unfold restoreCmd
    cases apiR with
    | ok u => rfl
    | error e => rfl
  · intro p hp
    unfold deleteCmd
    simp only [hp]
    cases apiR with
    | ok u => rfl
    | error e => rfl
  · intro e he
    unfold deleteCmd
    simp only [he]
    rfl

theorem C7_confirmation_witness :
    (deleteCmd (some "u") none none false true (Except.ok ())).requests
      = [ApiReq.wfReq [("action", JVal.str "delete"), ("workflow_id", JVal.str "u")]] :=
  (C7_confirmation (some "u") none none "w" 1 (Except.ok ())).2.2.2.1
    [("action", JVal.str "delete"), ("workflow_id", JVal.str "u")] rfl

/-- C8 as stated fails on the code: with no YAML declarations, an
override-only reconciliation succeeds with a non-empty result, yet the
fallback branch returns before the display block, so no summary line lists
the variables. -/
theorem C8_counterexample :
    gather_environment_variables [] (fun _ => none) ["A=1"]
      = Except.ok [EnvVar.mk "A" "1" false]
    ∧ displaySummary [] (fun _ => none) ["A=1"] = [] :=
  ⟨rfl, rfl⟩

/-- C8 (amended): when the YAML declaration list is non-empty and
reconciliation succeeds, the echoed summary is exactly the final dictionary
sorted by name, each declared-secret variable's line showing `***` (plus a
`(secret)` marker) in place of its value and each non-secret value printed
verbatim; with no declarations the fallback path prints no summary. -/
theorem C8_sorted_masked_summary (decls : List EnvDecl) (env : String → Option String)
    (ovr : List String) (d : List (String × String)) (sv : List String)
    (hne : decls ≠ []) (h : gatherCore decls env ovr = Except.ok (d, sv)) :
    displaySummary decls env ovr
        = (sortByKey d).map (fun p => displayLine p.1 p.2 (declaredSecret decls p.1))
    ∧ List.Pairwise (fun a b : String × String => a.1 ≤ b.1) (sortByKey d)
    ∧ (sortByKey d).Perm d
    ∧ (∀ nm vl : String, displayLine nm vl true = "  " ++ nm ++ ": " ++ "***" ++ " (secret)")
    ∧ (∀ nm vl : String, displayLine nm vl false = "  " ++ nm ++ ": " ++ vl ++ "")
    ∧ gather_environment_variables decls env ovr
        = Except.ok (d.map fun p => EnvVar.mk p.1 p.2 (declaredSecret decls p.1)) := by
  have hd : decls.isEmpty = false := by
    cases decls with
    | nil => exact absurd rfl hne
    | cons a l => rfl
  have hsec : ∀ n, memb sv n = declaredSecret decls n :=
    gather_ok_secret decls env ovr d sv h
  refine ⟨?_, ?_, ?_, fun nm vl => rfl, fun nm vl => rfl, ?_⟩
  · unfold displaySummary
    rw [hd]
    simp only [Bool.false_eq_true, if_false, h]
    exact map_eq_of_fn_eq _ _ _ fun p _ => by rw [hsec p.1]
  · exact List.sorted_insertionSort _ d
  · exact List.perm_insertionSort _ d
  · unfold gather_environment_variables
    rw [h]
    exact congrArg Except.ok (map_eq_of_fn_eq _ _ _ fun p _ => by rw [hsec p.1])

theorem C8_sorted_masked_summary_witness :
    displaySummary [EnvDecl.obj (some "API_KEY") true]
        (fun n => if n = "API_KEY" then some "secret-key-123" else none) []
      = (sortByKey [("API_KEY", "secret-key-123")]).map
          (fun p => displayLine p.1 p.2
            (declaredSecret [EnvDecl.obj (some "API_KEY") true] p.1)) :=
  (C8_sorted_masked_summary [EnvDecl.obj (some "API_KEY") true]
    (fun n => if n = "API_KEY" then some "secret-key-123" else none) []
    [("API_KEY", "secret-key-123")] ["API_KEY"]
    (List.cons_ne_nil _ _) rfl).1

example : gather_environment_variables
    [EnvDecl.obj (some "API_KEY") true]
    (fun n => if n = "API_KEY" then some "secret-key-123" else none) []
    = Except.ok [⟨"API_KEY", "secret-key-123", true⟩] := rfl

example : gather_environment_variables
    [EnvDecl.obj (some "DB_URL") false] (fun _ => none) ["DB_URL=x"]
    = Except.error (missingMsg ["DB_URL"]) := rfl

example : displaySummary
    [EnvDecl.obj (some "API_KEY") true]
    (fun n => if n = "API_KEY" then some "secret-key-123" else none) []
    = ["  API_KEY: *** (secret)"] := by decide

end Etlr
